import Mathlib

/-!
Verification of the calendar-to-page synchronisation program.

The development shallowly embeds the two source modules:

* `sync_to_notion` — the reconciliation engine (`CalendarSync`): the
  correspondence fetcher (`get_notion_pages` / `_get_property_content`),
  the recurrence formatter (`_format_recurrence_text`), the property
  mapper used by the create and update paths, the page-mutator wrappers
  (`update_notion_page`, `create_notion_page`, `delete_notion_page`) and
  the orchestration loop (`sync_all_events`).
* `webhook_server` — the signature check (`verify_signature`).

Python dictionaries are embedded as association lists with insertion-order
semantics (`dinsert` replaces the value in place for an existing key and
appends new keys at the end, as CPython dicts do).  Python truthiness of
optional strings is `pyTruthy`.  The external stores are parameters: the
page store is a function from a start cursor to a query response, and the
three mutating HTTP calls are `Except`-valued oracles (an `Except.error`
models the client raising an exception).  Datetimes are carried as their
ISO rendering, which is all the program ever uses of them.
-/

namespace GCalSync

/-- Association-list lookup, embedding Python `d[k]` / `k in d`. -/
def dlookup {α : Type} (d : List (String × α)) (k : String) : Option α :=
  match d with
  | [] => none
  | (k', v) :: rest => if k' = k then some v else dlookup rest k

/-- Association-list insertion with CPython dict semantics: an existing
key keeps its position and gets the new value; a new key is appended. -/
def dinsert {α : Type} (k : String) (v : α) (d : List (String × α)) : List (String × α) :=
  match d with
  | [] => [(k, v)]
  | (k', v') :: rest => if k' = k then (k, v) :: rest else (k', v') :: dinsert k v rest

/-- Association-list deletion, embedding Python `del d[k]`. -/
def ddel {α : Type} (d : List (String × α)) (k : String) : List (String × α) :=
  match d with
  | [] => []
  | (k', v') :: rest => if k' = k then ddel rest k else (k', v') :: ddel rest k

/-- Whether the dictionary has an entry for key `k`. -/
def hasKey {α : Type} (d : List (String × α)) (k : String) : Bool :=
  (dlookup d k).isSome

/-- Python truthiness of an optional string: `None` and `""` are falsy. -/
def pyTruthy (o : Option String) : Bool :=
  match o with
  | none => false
  | some s => if s = "" then false else true

/-- Python `bool(x)` over a nullable integer column ({0,1,NULL} in use). -/
def pyBool (o : Option Nat) : Bool :=
  match o with
  | none => false
  | some n => if n = 0 then false else true

/-- Python `x or 1` over a nullable integer column. -/
def pyOrOne (o : Option Nat) : Nat :=
  match o with
  | none => 1
  | some n => if n = 0 then 1 else n

/-- Python's whitespace test for `str.strip`, over the ASCII whitespace
characters that can occur in the data. -/
def pyIsSpace (c : Char) : Bool :=
  (c == ' ') || (c == '\t') || (c == '\n') || (c == '\r')

/-- Python `str.strip()`: drop leading and trailing whitespace. -/
def pyStrip (s : String) : String :=
  ⟨(((s.data.dropWhile pyIsSpace).reverse.dropWhile pyIsSpace).reverse)⟩

/-- Python `str.lower()` on one character, over the ASCII alphabet the
data uses. -/
def pyToLowerChar (c : Char) : Char :=
  match c with
  | 'A' => 'a'
  | 'B' => 'b'
  | 'C' => 'c'
  | 'D' => 'd'
  | 'E' => 'e'
  | 'F' => 'f'
  | 'G' => 'g'
  | 'H' => 'h'
  | 'I' => 'i'
  | 'J' => 'j'
  | 'K' => 'k'
  | 'L' => 'l'
  | 'M' => 'm'
  | 'N' => 'n'
  | 'O' => 'o'
  | 'P' => 'p'
  | 'Q' => 'q'
  | 'R' => 'r'
  | 'S' => 's'
  | 'T' => 't'
  | 'U' => 'u'
  | 'V' => 'v'
  | 'W' => 'w'
  | 'X' => 'x'
  | 'Y' => 'y'
  | 'Z' => 'z'
  | _ => c

/-- Python `str.lower()`. -/
def pyLower (s : String) : String :=
  ⟨s.data.map pyToLowerChar⟩

/-- Python `str.split(sep)` over character lists: greedy left-to-right
scan emitting a segment at each separator occurrence.  The fuel is the
remaining scan budget; one unit is spent per character examined, so
`s.length + 1` always suffices. -/
def pySplitAux (sep : List Char) : Nat → List Char → List Char → List (List Char)
  | 0, acc, s => [acc.reverse ++ s]
  | _ + 1, acc, [] => [acc.reverse]
  | fuel + 1, acc, c :: rest =>
    if sep.isPrefixOf (c :: rest) then
      acc.reverse :: pySplitAux sep fuel [] ((c :: rest).drop sep.length)
    else
      pySplitAux sep fuel (c :: acc) rest

/-- Python `str.split(sep)` for a non-empty separator (the program only
splits on `","` and `", "`). -/
def pySplitOn (s : String) (sep : String) : List String :=
  if sep = "" then [s]
  else (pySplitAux sep.data (s.data.length + 1) [] s.data).map (fun l => ⟨l⟩)

/-- One event row as produced by `get_calendar_events`: scalar columns,
the aggregated attendee string, and the joined recurrence columns. -/
structure Event where
  event_id : String
  title : String
  start_time : String
  end_time : String
  all_day : Option Nat
  location : Option String
  description : Option String
  calendar_name : String
  attendees : Option String
  recurrence_type : Option String
  interval : Option Nat
  by_day : Option String
deriving DecidableEq

/-- The fixed seven-entry weekday lookup table (`day_mapping`). -/
def day_mapping (d : String) : Option String :=
  match d with
  | "MO" => some "Monday"
  | "TU" => some "Tuesday"
  | "WE" => some "Wednesday"
  | "TH" => some "Thursday"
  | "FR" => some "Friday"
  | "SA" => some "Saturday"
  | "SU" => some "Sunday"
  | _ => none

/-- Embeds `day_mapping.get(day.strip(), day.strip())`: translate one weekday
code, passing unknown codes through trimmed. -/
def formatDay (day : String) : String :=
  (day_mapping (pyStrip day)).getD (pyStrip day)

/-- The day-phrase branch of `_format_recurrence_text`: a single day as
`on {day}`, several days comma-joined with `and` before the last. -/
def joinDays (formatted_days : List String) : String :=
  if formatted_days.length = 1 then
    "on " ++ formatted_days.headD ""
  else
    "on " ++ String.intercalate ", " formatted_days.dropLast ++ " and " ++ formatted_days.getLastD ""

/-- Embeds `CalendarSync._format_recurrence_text`.  The two-element `parts` list
of the source is rendered directly: `" ".join([lead])` is `lead` and
`" ".join([lead, days])` is `lead ++ " " ++ days`. -/
def format_recurrence_text (event : Event) : Option String :=
  if pyTruthy event.recurrence_type = false then none
  else
    let recurrence_type := pyLower (event.recurrence_type.getD "")
    let interval := pyOrOne event.interval
    let lead :=
      if interval = 1 then "Every " ++ recurrence_type
      else "Every " ++ toString interval ++ " " ++ recurrence_type ++ "s"
    if pyTruthy event.by_day then
      some (lead ++ " " ++ joinDays ((pySplitOn (event.by_day.getD "") ",").map formatDay))
    else
      some lead

/-- One value of the structured property payload sent to the page store. -/
inductive PropValue where
  | title : String → PropValue
  | date : String → String → PropValue
  | select : String → PropValue
  | rich_text : String → PropValue
  | checkbox : Bool → PropValue
  | multi_select : List String → PropValue
deriving DecidableEq

/-- The property payload: a dictionary from property name to value. -/
abbrev Props := List (String × PropValue)

/-- Embeds `event["attendees"].split(", ") if event["attendees"] else []`. -/
def pyAttendees (a : Option String) : List String :=
  if pyTruthy a then pySplitOn (a.getD "") ", " else []

/-- The property payload built by `update_notion_page` (lines 134–170). -/
def update_page_properties (event : Event) : Props :=
  let attendees := pyAttendees event.attendees
  let recurrence_text := format_recurrence_text event
  let properties : Props :=
    [("Name", PropValue.title event.title),
     ("Date", PropValue.date event.start_time event.end_time),
     ("Calendar", PropValue.select event.calendar_name),
     ("Location", PropValue.rich_text (event.location.getD "")),
     ("All Day", PropValue.checkbox (pyBool event.all_day)),
     ("Event ID", PropValue.rich_text event.event_id)]
  let properties :=
    if pyTruthy event.description then
      dinsert "Description" (PropValue.rich_text (event.description.getD "")) properties
    else properties
  let properties :=
    if pyTruthy recurrence_text then
      dinsert "Recurrence" (PropValue.rich_text (recurrence_text.getD "")) properties
    else properties
  let properties :=
    if attendees.isEmpty then properties
    else
      dinsert "Attendees"
        (PropValue.multi_select (attendees.filterMap
          (fun email => if pyStrip email = "" then none else some (pyStrip email))))
        properties
  properties

/-- The property payload built by `create_notion_page` (lines 182–218);
the source duplicates the construction verbatim. -/
def create_page_properties (event : Event) : Props :=
  let attendees := pyAttendees event.attendees
  let recurrence_text := format_recurrence_text event
  let properties : Props :=
    [("Name", PropValue.title event.title),
     ("Date", PropValue.date event.start_time event.end_time),
     ("Calendar", PropValue.select event.calendar_name),
     ("Location", PropValue.rich_text (event.location.getD "")),
     ("All Day", PropValue.checkbox (pyBool event.all_day)),
     ("Event ID", PropValue.rich_text event.event_id)]
  let properties :=
    if pyTruthy event.description then
      dinsert "Description" (PropValue.rich_text (event.description.getD "")) properties
    else properties
  let properties :=
    if pyTruthy recurrence_text then
      dinsert "Recurrence" (PropValue.rich_text (recurrence_text.getD "")) properties
    else properties
  let properties :=
    if attendees.isEmpty then properties
    else
      dinsert "Attendees"
        (PropValue.multi_select (attendees.filterMap
          (fun email => if pyStrip email = "" then none else some (pyStrip email))))
        properties
  properties

/-- Embeds `CalendarSync.update_notion_page`: build the payload, issue the call,
catch any raised error and report `False` instead. -/
def update_notion_page (api : String → Props → Except String Unit)
    (page_id : String) (event : Event) : Bool :=
  match api page_id (update_page_properties event) with
  | Except.ok _ => true
  | Except.error _ => false

/-- Embeds `CalendarSync.create_notion_page`: build the payload, issue the call,
return the new page id, or `None` when the call raised. -/
def create_notion_page (api : Props → Except String String) (event : Event) : Option String :=
  match api (create_page_properties event) with
  | Except.ok response_id => some response_id
  | Except.error _ => none

/-- Embeds `CalendarSync.delete_notion_page`: archive the page, report success,
catch any raised error and report `False` instead. -/
def delete_notion_page (api : String → Except String Unit) (page_id : String) : Bool :=
  match api page_id with
  | Except.ok _ => true
  | Except.error _ => false

/-- One page as returned by the store query: its opaque handle and the
`Event ID` property's rich-text segment contents (`none` when the
property is absent or lacks the rich-text key). -/
structure Page where
  event_id_property : Option (List String)
  id : String
deriving DecidableEq

/-- Embeds `CalendarSync._get_property_content`. -/
def get_property_content (property_data : Option (List String)) : Option String :=
  match property_data with
  | none => none
  | some [] => none
  | some (seg :: _) => some seg

/-- The correspondence map: readable event identifier → page handle. -/
abbrev DictS := List (String × String)

/-- The loop body of `get_notion_pages` for one result page:
`if event_id: pages[event_id] = page["id"]`. -/
def insertPage (pages : DictS) (page : Page) : DictS :=
  let event_id := get_property_content page.event_id_property
  if pyTruthy event_id then dinsert (event_id.getD "") page.id pages else pages

/-- The identifier a page contributes, if any: the extracted property
content when it is truthy. -/
def readEventId (page : Page) : Option String :=
  let event_id := get_property_content page.event_id_property
  if pyTruthy event_id then event_id else none

/-- Folding a page enumeration into a correspondence map. -/
def buildPagesMap (ps : List Page) : DictS :=
  ps.foldl insertPage []

/-- One response of the store's query operation. -/
structure QueryResponse where
  results : List Page
  has_more : Bool
  next_cursor : Option String

/-- The `while True` loop of `get_notion_pages`, with explicit fuel and
an instrumentation list recording the start cursor of every request
issued.  Returns `none` only when the fuel runs out. -/
def get_notion_pages_aux (store : Option String → QueryResponse) :
    Nat → Option String → DictS → List (Option String) →
    Option (List (Option String) × DictS)
  | 0, _, _, _ => none
  | fuel + 1, start_cursor, pages, reqs =>
    let response := store start_cursor
    let pages := response.results.foldl insertPage pages
    if response.has_more then
      get_notion_pages_aux store fuel response.next_cursor pages (reqs ++ [start_cursor])
    else
      some (reqs ++ [start_cursor], pages)

/-- Embeds `CalendarSync.get_notion_pages`: start with no cursor and an empty
map. -/
def get_notion_pages (store : Option String → QueryResponse) (fuel : Nat) :
    Option (List (Option String) × DictS) :=
  get_notion_pages_aux store fuel none [] []

/-- The responses a store yields along the cursor chain starting at `c`:
every response but the last reports `has_more`, the last does not, and
each response's `next_cursor` is the next request's start cursor. -/
inductive StoreChain (store : Option String → QueryResponse) :
    Option String → List QueryResponse → Prop where
  | last : ∀ c r, store c = r → r.has_more = false → StoreChain store c [r]
  | more : ∀ c r rs, store c = r → r.has_more = true →
      StoreChain store r.next_cursor rs → StoreChain store c (r :: rs)

/-- One observable operation issued against the page store. -/
inductive Op where
  | update : String → Event → Op
  | create : Event → Op
  | archive : String → Op
deriving DecidableEq

/-- The first loop of `sync_all_events`: walk the event map, update the
matched pages (consuming their correspondence entry) and create pages
for unmatched events.  Returns
`(created, updated, errors, remaining pages, trace)`. -/
def syncPhase1 (U : String → Event → Bool) (Cr : Event → Option String) :
    List (String × Event) → DictS → Nat × Nat × Nat × DictS × List Op
  | [], pages => (0, 0, 0, pages, [])
  | (event_id, event) :: rest, pages =>
    match dlookup pages event_id with
    | some page_id =>
      match syncPhase1 U Cr rest (ddel pages event_id) with
      | (c, u, e, pagesLeft, tr) =>
        if U page_id event then (c, u + 1, e, pagesLeft, Op.update page_id event :: tr)
        else (c, u, e + 1, pagesLeft, Op.update page_id event :: tr)
    | none =>
      match syncPhase1 U Cr rest pages with
      | (c, u, e, pagesLeft, tr) =>
        if pyTruthy (Cr event) then (c + 1, u, e, pagesLeft, Op.create event :: tr)
        else (c, u, e + 1, pagesLeft, Op.create event :: tr)

/-- The second loop of `sync_all_events`: archive every leftover page.
Returns `(deleted, errors, trace)`. -/
def syncPhase2 (D : String → Bool) : DictS → Nat × Nat × List Op
  | [] => (0, 0, [])
  | (_, page_id) :: rest =>
    match syncPhase2 D rest with
    | (d, e, tr) =>
      if D page_id then (d + 1, e, Op.archive page_id :: tr)
      else (d, e + 1, Op.archive page_id :: tr)

/-- The summary a reconciliation pass prints, plus the call trace. -/
structure SyncResult where
  created : Nat
  updated : Nat
  deleted : Nat
  errors : Nat
  trace : List Op
deriving DecidableEq

/-- Embeds `CalendarSync.sync_all_events`, parametrised by the three store
calls and applied to already-fetched event and page maps. -/
def sync_all_events (updApi : String → Props → Except String Unit)
    (crtApi : Props → Except String String) (delApi : String → Except String Unit)
    (mysql_events : List (String × Event)) (notion_pages : DictS) : SyncResult :=
  match syncPhase1 (update_notion_page updApi) (create_notion_page crtApi)
      mysql_events notion_pages with
  | (created, updated, errors1, pagesLeft, tr1) =>
    match syncPhase2 (delete_notion_page delApi) pagesLeft with
    | (deleted, errors2, tr2) =>
      ⟨created, updated, deleted, errors1 + errors2, tr1 ++ tr2⟩

/-- Embeds `webhook_server.verify_signature`, parametrised by the HMAC-SHA256
hex-digest function of the standard library (a pure function of the
secret and the raw body bytes). -/
def verify_signature (hmac_hexdigest : String → List Nat → String)
    (webhook_secret : Option String) (signature : String) (body : List Nat) : Bool :=
  if pyTruthy webhook_secret = false then false
  else
    let expected_signature := hmac_hexdigest (webhook_secret.getD "") body
    signature == expected_signature

/-- Trace observation: an update call for the event with this identifier. -/
def isUpdateOf (event_id : String) (op : Op) : Bool :=
  match op with
  | Op.update _ e => e.event_id == event_id
  | _ => false

/-- Trace observation: a create call for the event with this identifier. -/
def isCreateOf (event_id : String) (op : Op) : Bool :=
  match op with
  | Op.create e => e.event_id == event_id
  | _ => false

/-- Trace observation: an archive call. -/
def isArchive (op : Op) : Bool :=
  match op with
  | Op.archive _ => true
  | _ => false

/-- Trace observation: any call addressed to this page handle. -/
def usesHandle (h : String) (op : Op) : Bool :=
  match op with
  | Op.update page_id _ => page_id == h
  | Op.archive page_id => page_id == h
  | _ => false

/-- The handle a page offers for a given identifier: its own handle when
its readable identifier is exactly `event_id`. -/
def pageIdFor (event_id : String) (page : Page) : Option String :=
  match readEventId page with
  | some i => if i = event_id then some page.id else none
  | none => none

/-- An event with every optional column absent, used as the base of the
concrete test fixtures. -/
def baseEvent : Event :=
  { event_id := "", title := "", start_time := "", end_time := "", all_day := none,
    location := none, description := none, calendar_name := "", attendees := none,
    recurrence_type := none, interval := none, by_day := none }

/-- Fixture event `a`. -/
def evA : Event :=
  { baseEvent with event_id := "a", title := "A" }

/-- Fixture event `b`. -/
def evB : Event :=
  { baseEvent with event_id := "b", title := "B" }

/-- Fixture event map: two events keyed by their identifiers. -/
def sampleEvents : List (String × Event) :=
  [("a", evA), ("b", evB)]

/-- Fixture correspondence map: `a` matches an event, `c` is stale. -/
def samplePages : DictS :=
  [("a", "pa"), ("c", "pc")]

/-- An update call that always succeeds. -/
def okUpdApi : String → Props → Except String Unit := fun _ _ => Except.ok ()

/-- A create call that always succeeds. -/
def okCrtApi : Props → Except String String := fun _ => Except.ok "new-page"

/-- An archive call that always succeeds. -/
def okDelApi : String → Except String Unit := fun _ => Except.ok ()

/-- An update call that always raises. -/
def errUpdApi : String → Props → Except String Unit := fun _ _ => Except.error "e1"

/-- A create call that always raises. -/
def errCrtApi : Props → Except String String := fun _ => Except.error "e1"

/-- An archive call that always raises. -/
def errDelApi : String → Except String Unit := fun _ => Except.error "e1"

/-- A concrete stand-in for the HMAC hex-digest function, used only to
instantiate signature-verification statements. -/
def concreteHmac : String → List Nat → String :=
  fun secret body => secret ++ "|" ++ String.intercalate "," (body.map toString)

/-- Fixture store response 1: one page, more results pending. -/
def sampleResp1 : QueryResponse :=
  { results := [{ event_id_property := some ["a"], id := "pa" }],
    has_more := true, next_cursor := some "cur1" }

/-- Fixture store response 2: one page, enumeration complete. -/
def sampleResp2 : QueryResponse :=
  { results := [{ event_id_property := some ["b"], id := "pb" }],
    has_more := false, next_cursor := none }

/-- Fixture paginated store: first request gets `sampleResp1`, any
cursor-bearing request gets `sampleResp2`. -/
def sampleStore : Option String → QueryResponse := fun c =>
  match c with
  | none => sampleResp1
  | some _ => sampleResp2

/-- Fixture enumeration carrying the same identifier on two pages. -/
def dupPages : List Page :=
  [{ event_id_property := some ["a"], id := "p1" },
   { event_id_property := some ["a"], id := "p2" }]

/-- The operation the first reconciliation loop issues for one event
entry, as a function of the initial correspondence map. -/
def phase1Op (pages : DictS) (p : String × Event) : Op :=
  match dlookup pages p.1 with
  | some page_id => Op.update page_id p.2
  | none => Op.create p.2

/-- Whether the first loop counts this entry as created. -/
def phase1CreatedP (Cr : Event → Option String) (pages : DictS) (p : String × Event) : Bool :=
  match dlookup pages p.1 with
  | some _ => false
  | none => pyTruthy (Cr p.2)

/-- Whether the first loop counts this entry as updated. -/
def phase1UpdatedP (U : String → Event → Bool) (pages : DictS) (p : String × Event) : Bool :=
  match dlookup pages p.1 with
  | some page_id => U page_id p.2
  | none => false

/-- Whether the first loop counts this entry as an error. -/
def phase1ErrorP (U : String → Event → Bool) (Cr : Event → Option String)
    (pages : DictS) (p : String × Event) : Bool :=
  match dlookup pages p.1 with
  | some page_id => !U page_id p.2
  | none => !pyTruthy (Cr p.2)

/-- The correspondences left after the first loop: page-map entries
whose key is not an event identifier. -/
def leftoverPages (E : List (String × Event)) (pages : DictS) : DictS :=
  pages.filter (fun q => !((E.map Prod.fst).contains q.1))

/-! ### Basic dictionary lemmas -/

theorem dlookup_dinsert_self {α : Type} (d : List (String × α)) (k : String) (v : α) :
    dlookup (dinsert k v d) k = some v := by
  induction d with
  | nil => simp [dinsert, dlookup]
  | cons p rest ih =>
    by_cases h : p.1 = k
    · simp [dinsert, dlookup, h]
    · simp [dinsert, dlookup, h, ih]

theorem dlookup_dinsert_ne {α : Type} (d : List (String × α)) (k k' : String) (v : α)
    (h : k' ≠ k) : dlookup (dinsert k v d) k' = dlookup d k' := by
  have hk : ¬(k = k') := fun e => h e.symm
  induction d with
  | nil => simp [dinsert, dlookup, hk]
  | cons p rest ih =>
    obtain ⟨k0, v0⟩ := p
    by_cases hp : k0 = k
    · subst hp
      simp [dinsert, dlookup, hk]
    · by_cases hq : k0 = k'
      · subst hq
        simp [dinsert, dlookup, hp]
      · simp [dinsert, dlookup, hp, hq, ih]

theorem dlookup_ddel_ne {α : Type} (d : List (String × α)) (k k' : String)
    (h : k' ≠ k) : dlookup (ddel d k) k' = dlookup d k' := by
  have hk : ¬(k = k') := fun e => h e.symm
  induction d with
  | nil => simp [ddel]
  | cons p rest ih =>
    obtain ⟨k0, v0⟩ := p
    by_cases hp : k0 = k
    · subst hp
      simp [ddel, dlookup, hk, ih]
    · by_cases hq : k0 = k'
      · subst hq
        simp [ddel, dlookup, hp]
      · simp [ddel, dlookup, hp, hq, ih]

theorem ddel_eq_filter {α : Type} (d : List (String × α)) (k : String) :
    ddel d k = d.filter (fun p => decide (p.1 ≠ k)) := by
  induction d with
  | nil => simp [ddel]
  | cons p rest ih =>
    by_cases hp : p.1 = k
    · simp [ddel, hp, List.filter, ih]
    · simp [ddel, hp, List.filter, ih]

theorem dlookup_eq_none_iff {α : Type} (d : List (String × α)) (k : String) :
    dlookup d k = none ↔ ∀ p ∈ d, p.1 ≠ k := by
  induction d with
  | nil => simp [dlookup]
  | cons p rest ih =>
    by_cases hp : p.1 = k
    · simp [dlookup, hp]
    · simp [dlookup, hp, ih]

theorem dlookup_some_mem {α : Type} {d : List (String × α)} {k : String} {v : α}
    (h : dlookup d k = some v) : (k, v) ∈ d := by
  induction d with
  | nil => simp [dlookup] at h
  | cons p rest ih =>
    by_cases hp : p.1 = k
    · rw [dlookup, if_pos hp] at h
      injection h with h2
      have hpe : (k, v) = p := by
        rw [← hp, ← h2]
      rw [hpe]
      exact List.mem_cons_self p rest
    · rw [dlookup, if_neg hp] at h
      exact List.mem_cons_of_mem _ (ih h)

theorem mem_dlookup_isSome {α : Type} {d : List (String × α)} {p : String × α}
    (h : p ∈ d) : (dlookup d p.1).isSome = true := by
  induction d with
  | nil => simp at h
  | cons q rest ih =>
    cases h with
    | head => simp [dlookup]
    | tail _ hmem =>
      by_cases hq : q.1 = p.1
      · simp [dlookup, hq]
      · simp [dlookup, hq, ih hmem]

/-! ### `String.splitOn` never returns the empty list -/

theorem pySplitAux_ne_nil (sep : List Char) :
    ∀ (fuel : Nat) (acc s : List Char), pySplitAux sep fuel acc s ≠ [] := by
  intro fuel
  induction fuel with
  | zero => intro acc s; simp [pySplitAux]
  | succ f ih =>
    intro acc s
    cases s with
    | nil => simp [pySplitAux]
    | cons c rest =>
      rw [pySplitAux]
      by_cases h : sep.isPrefixOf (c :: rest) = true
      · rw [if_pos h]
        simp
      · rw [if_neg h]
        exact ih (c :: acc) rest

theorem pySplitOn_ne_nil (s sep : String) : pySplitOn s sep ≠ [] := by
  rw [pySplitOn]
  by_cases h : sep = ""
  · rw [if_pos h]
    simp
  · rw [if_neg h]
    simp [pySplitAux_ne_nil]

theorem pyAttendees_eq_nil_iff (a : Option String) :
    pyAttendees a = [] ↔ pyTruthy a = false := by
  constructor
  · intro h
    cases hb : pyTruthy a
    · rfl
    · exfalso
      rw [pyAttendees, hb, if_pos rfl] at h
      exact pySplitOn_ne_nil _ _ h
  · intro h
    rw [pyAttendees, h]
    simp

/-! ### The recurrence formatter never produces the empty string -/

theorem every_append_ne_empty (x : String) : "Every " ++ x ≠ "" := by
  intro h
  have hl := congrArg String.length h
  rw [String.length_append] at hl
  have h6 : "Every ".length = 6 := rfl
  have h0 : "".length = 0 := rfl
  omega

theorem format_recurrence_text_ne_empty (event : Event) (s : String)
    (h : format_recurrence_text event = some s) : s ≠ "" := by
  rw [format_recurrence_text] at h
  by_cases ht : pyTruthy event.recurrence_type = false
  · rw [if_pos ht] at h
    exact absurd h (by simp)
  · rw [if_neg ht] at h
    simp only [] at h
    by_cases hb : pyTruthy event.by_day
    · rw [if_pos hb] at h
      injection h with h
      subst h
      by_cases hi : pyOrOne event.interval = 1
      · rw [if_pos hi]
        rw [String.append_assoc, String.append_assoc]
        exact every_append_ne_empty _
      · rw [if_neg hi]
        rw [String.append_assoc, String.append_assoc, String.append_assoc,
          String.append_assoc, String.append_assoc]
        exact every_append_ne_empty _
    · rw [if_neg hb] at h
      injection h with h
      subst h
      by_cases hi : pyOrOne event.interval = 1
      · rw [if_pos hi]
        exact every_append_ne_empty _
      · rw [if_neg hi]
        rw [String.append_assoc, String.append_assoc, String.append_assoc]
        exact every_append_ne_empty _

theorem pyTruthy_format_recurrence_text (event : Event) :
    pyTruthy (format_recurrence_text event) = (format_recurrence_text event).isSome := by
  cases h : format_recurrence_text event with
  | none => rfl
  | some s =>
    have hs := format_recurrence_text_ne_empty event s h
    simp [pyTruthy, hs]

/-! ### Payload shape lemmas, shared by the create and update paths -/

theorem create_page_properties_eq (event : Event) :
    create_page_properties event = update_page_properties event := rfl

theorem update_props_description (event : Event) :
    dlookup (update_page_properties event) "Description" =
      (if pyTruthy event.description then
        some (PropValue.rich_text (event.description.getD "")) else none) := by
  by_cases h1 : pyTruthy event.description
  · by_cases h2 : pyTruthy (format_recurrence_text event)
    · by_cases h3 : (pyAttendees event.attendees).isEmpty
      · simp [update_page_properties, h1, h2, h3, dinsert, dlookup]
      · simp [update_page_properties, h1, h2, h3, dinsert, dlookup]
    · by_cases h3 : (pyAttendees event.attendees).isEmpty
      · simp [update_page_properties, h1, h2, h3, dinsert, dlookup]
      · simp [update_page_properties, h1, h2, h3, dinsert, dlookup]
  · by_cases h2 : pyTruthy (format_recurrence_text event)
    · by_cases h3 : (pyAttendees event.attendees).isEmpty
      · simp [update_page_properties, h1, h2, h3, dinsert, dlookup]
      · simp [update_page_properties, h1, h2, h3, dinsert, dlookup]
    · by_cases h3 : (pyAttendees event.attendees).isEmpty
      · simp [update_page_properties, h1, h2, h3, dinsert, dlookup]
      · simp [update_page_properties, h1, h2, h3, dinsert, dlookup]

theorem update_props_recurrence (event : Event) :
    dlookup (update_page_properties event) "Recurrence" =
      (if pyTruthy (format_recurrence_text event) then
        some (PropValue.rich_text ((format_recurrence_text event).getD "")) else none) := by
  by_cases h1 : pyTruthy event.description
  · by_cases h2 : pyTruthy (format_recurrence_text event)
    · by_cases h3 : (pyAttendees event.attendees).isEmpty
      · simp [update_page_properties, h1, h2, h3, dinsert, dlookup]
      · simp [update_page_properties, h1, h2, h3, dinsert, dlookup]
    · by_cases h3 : (pyAttendees event.attendees).isEmpty
      · simp [update_page_properties, h1, h2, h3, dinsert, dlookup]
      · simp [update_page_properties, h1, h2, h3, dinsert, dlookup]
  · by_cases h2 : pyTruthy (format_recurrence_text event)
    · by_cases h3 : (pyAttendees event.attendees).isEmpty
      · simp [update_page_properties, h1, h2, h3, dinsert, dlookup]
      · simp [update_page_properties, h1, h2, h3, dinsert, dlookup]
    · by_cases h3 : (pyAttendees event.attendees).isEmpty
      · simp [update_page_properties, h1, h2, h3, dinsert, dlookup]
      · simp [update_page_properties, h1, h2, h3, dinsert, dlookup]

theorem update_props_location (event : Event) :
    dlookup (update_page_properties event) "Location" =
      some (PropValue.rich_text (event.location.getD "")) := by
  by_cases h1 : pyTruthy event.description
  · by_cases h2 : pyTruthy (format_recurrence_text event)
    · by_cases h3 : (pyAttendees event.attendees).isEmpty
      · simp [update_page_properties, h1, h2, h3, dinsert, dlookup]
      · simp [update_page_properties, h1, h2, h3, dinsert, dlookup]
    · by_cases h3 : (pyAttendees event.attendees).isEmpty
      · simp [update_page_properties, h1, h2, h3, dinsert, dlookup]
      · simp [update_page_properties, h1, h2, h3, dinsert, dlookup]
  · by_cases h2 : pyTruthy (format_recurrence_text event)
    · by_cases h3 : (pyAttendees event.attendees).isEmpty
      · simp [update_page_properties, h1, h2, h3, dinsert, dlookup]
      · simp [update_page_properties, h1, h2, h3, dinsert, dlookup]
    · by_cases h3 : (pyAttendees event.attendees).isEmpty
      · simp [update_page_properties, h1, h2, h3, dinsert, dlookup]
      · simp [update_page_properties, h1, h2, h3, dinsert, dlookup]

theorem update_props_attendees (event : Event) :
    dlookup (update_page_properties event) "Attendees" =
      (if (pyAttendees event.attendees).isEmpty then none
       else some (PropValue.multi_select ((pyAttendees event.attendees).filterMap
         (fun email => if pyStrip email = "" then none else some (pyStrip email))))) := by
  by_cases h1 : pyTruthy event.description
  · by_cases h2 : pyTruthy (format_recurrence_text event)
    · by_cases h3 : (pyAttendees event.attendees).isEmpty
      · simp [update_page_properties, h1, h2, h3, dinsert, dlookup]
      · simp [update_page_properties, h1, h2, h3, dinsert, dlookup]
    · by_cases h3 : (pyAttendees event.attendees).isEmpty
      · simp [update_page_properties, h1, h2, h3, dinsert, dlookup]
      · simp [update_page_properties, h1, h2, h3, dinsert, dlookup]
  · by_cases h2 : pyTruthy (format_recurrence_text event)
    · by_cases h3 : (pyAttendees event.attendees).isEmpty
      · simp [update_page_properties, h1, h2, h3, dinsert, dlookup]
      · simp [update_page_properties, h1, h2, h3, dinsert, dlookup]
    · by_cases h3 : (pyAttendees event.attendees).isEmpty
      · simp [update_page_properties, h1, h2, h3, dinsert, dlookup]
      · simp [update_page_properties, h1, h2, h3, dinsert, dlookup]

/-! ### Characterisation of the reconciliation pass -/

theorem countP_congr_eq {α : Type} {p q : α → Bool} {l : List α}
    (h : ∀ x ∈ l, p x = q x) : l.countP p = l.countP q :=
  List.countP_congr (fun x hx => by rw [h x hx])

theorem syncPhase1_eq (U : String → Event → Bool) (Cr : Event → Option String)
    (E : List (String × Event)) :
    ∀ pages : DictS, (E.map Prod.fst).Nodup →
      syncPhase1 U Cr E pages =
        (E.countP (phase1CreatedP Cr pages),
         E.countP (phase1UpdatedP U pages),
         E.countP (phase1ErrorP U Cr pages),
         leftoverPages E pages,
         E.map (phase1Op pages)) := by
  induction E with
  | nil =>
    intro pages _
    simp [syncPhase1, leftoverPages]
  | cons p rest ih =>
    intro pages hnd
    obtain ⟨id, ev⟩ := p
    rw [List.map_cons, List.nodup_cons] at hnd
    obtain ⟨hid, hnd⟩ := hnd
    have hne : ∀ x ∈ rest, x.1 ≠ id := by
      intro x hx e
      have hm : x.1 ∈ rest.map Prod.fst := List.mem_map_of_mem Prod.fst hx
      rw [e] at hm
      exact hid hm
    cases hl : dlookup pages id with
    | some page_id =>
      have hdl : ∀ x ∈ rest, dlookup (ddel pages id) x.1 = dlookup pages x.1 :=
        fun x hx => dlookup_ddel_ne pages id x.1 (hne x hx)
      have h1 : rest.countP (phase1CreatedP Cr (ddel pages id)) =
          rest.countP (phase1CreatedP Cr pages) :=
        countP_congr_eq (fun x hx => by unfold phase1CreatedP; rw [hdl x hx])
      have h2 : rest.countP (phase1UpdatedP U (ddel pages id)) =
          rest.countP (phase1UpdatedP U pages) :=
        countP_congr_eq (fun x hx => by unfold phase1UpdatedP; rw [hdl x hx])
      have h3 : rest.countP (phase1ErrorP U Cr (ddel pages id)) =
          rest.countP (phase1ErrorP U Cr pages) :=
        countP_congr_eq (fun x hx => by unfold phase1ErrorP; rw [hdl x hx])
      have h4 : rest.map (phase1Op (ddel pages id)) = rest.map (phase1Op pages) :=
        List.map_congr_left (fun x hx => by unfold phase1Op; rw [hdl x hx])
      have h5 : leftoverPages rest (ddel pages id) = leftoverPages ((id, ev) :: rest) pages := by
        unfold leftoverPages
        rw [ddel_eq_filter, List.filter_filter]
        apply List.filter_congr
        intro q _
        by_cases hqi : q.1 = id
        · simp [hqi]
        · simp [hqi]
      simp only [syncPhase1, hl, ih (ddel pages id) hnd, h1, h2, h3, h4, h5]
      by_cases hu : U page_id ev = true
      · simp [hu, List.countP_cons, phase1CreatedP, phase1UpdatedP, phase1ErrorP,
          phase1Op, hl]
      · simp [hu, List.countP_cons, phase1CreatedP, phase1UpdatedP, phase1ErrorP,
          phase1Op, hl]
    | none =>
      have hnotkey : ∀ q ∈ pages, q.1 ≠ id :=
        (dlookup_eq_none_iff pages id).mp hl
      have h5 : leftoverPages rest pages = leftoverPages ((id, ev) :: rest) pages := by
        unfold leftoverPages
        apply List.filter_congr
        intro q hq
        have := hnotkey q hq
        simp [this]
      simp only [syncPhase1, hl, ih pages hnd, h5]
      by_cases hc : pyTruthy (Cr ev) = true
      · simp [hc, List.countP_cons, phase1CreatedP, phase1UpdatedP, phase1ErrorP,
          phase1Op, hl]
      · simp [hc, List.countP_cons, phase1CreatedP, phase1UpdatedP, phase1ErrorP,
          phase1Op, hl]

theorem syncPhase2_eq (D : String → Bool) (pages : DictS) :
    syncPhase2 D pages =
      (pages.countP (fun q => D q.2),
       pages.countP (fun q => !D q.2),
       pages.map (fun q => Op.archive q.2)) := by
  induction pages with
  | nil => simp [syncPhase2]
  | cons q rest ih =>
    obtain ⟨k, page_id⟩ := q
    by_cases hd : D page_id = true
    · simp [syncPhase2, ih, hd, List.countP_cons]
    · simp [syncPhase2, ih, hd, List.countP_cons]

theorem sync_all_events_eq (updApi : String → Props → Except String Unit)
    (crtApi : Props → Except String String) (delApi : String → Except String Unit)
    (E : List (String × Event)) (C : DictS) (hnd : (E.map Prod.fst).Nodup) :
    sync_all_events updApi crtApi delApi E C =
      ⟨E.countP (phase1CreatedP (create_notion_page crtApi) C),
       E.countP (phase1UpdatedP (update_notion_page updApi) C),
       (leftoverPages E C).countP (fun q => delete_notion_page delApi q.2),
       E.countP (phase1ErrorP (update_notion_page updApi) (create_notion_page crtApi) C)
         + (leftoverPages E C).countP (fun q => !delete_notion_page delApi q.2),
       E.map (phase1Op C) ++ (leftoverPages E C).map (fun q => Op.archive q.2)⟩ := by
  simp only [sync_all_events,
    syncPhase1_eq (update_notion_page updApi) (create_notion_page crtApi) E C hnd,
    syncPhase2_eq]

theorem countP_partition_two {α : Type} (p : α → Bool) (l : List α) :
    l.countP p + l.countP (fun a => !p a) = l.length := by
  induction l with
  | nil => simp
  | cons a t ih =>
    cases hp : p a
    · simp [List.countP_cons, hp]
      omega
    · simp [List.countP_cons, hp]
      omega

theorem countP_partition_three {α : Type} (p q r : α → Bool) (l : List α)
    (h : ∀ x ∈ l, (p x).toNat + (q x).toNat + (r x).toNat = 1) :
    l.countP p + l.countP q + l.countP r = l.length := by
  induction l with
  | nil => simp
  | cons a t ih =>
    have ha := h a (List.mem_cons_self a t)
    have ht := ih (fun x hx => h x (List.mem_cons_of_mem a hx))
    cases hp : p a <;> cases hq : q a <;> cases hr : r a <;>
      (rw [hp, hq, hr] at ha
       simp only [Bool.toNat_false, Bool.toNat_true] at ha) <;>
      simp [List.countP_cons, hp, hq, hr] <;> omega

theorem phase1_partition (U : String → Event → Bool) (Cr : Event → Option String)
    (pages : DictS) (x : String × Event) :
    (phase1CreatedP Cr pages x).toNat + (phase1UpdatedP U pages x).toNat
      + (phase1ErrorP U Cr pages x).toNat = 1 := by
  unfold phase1CreatedP phase1UpdatedP phase1ErrorP
  cases dlookup pages x.1 with
  | some page_id => cases hu : U page_id x.2 <;> simp [hu]
  | none => cases hc : pyTruthy (Cr x.2) <;> simp [hc]

theorem dlookup_isNone_eq_not_contains {α : Type} (d : List (String × α)) (k : String) :
    (dlookup d k).isNone = !((d.map Prod.fst).contains k) := by
  induction d with
  | nil => simp [dlookup]
  | cons p rest ih =>
    obtain ⟨k0, v0⟩ := p
    by_cases hp : k0 = k
    · subst hp
      simp [dlookup]
    · have hke : (k == k0) = false := by
        simp only [beq_eq_false_iff_ne, ne_eq]
        exact fun e => hp e.symm
      simp [dlookup, hp, ih, hke]

theorem filter_key_of_dlookup_some {α : Type} {d : List (String × α)} {k : String} {v : α}
    (hnd : (d.map Prod.fst).Nodup) (h : dlookup d k = some v) :
    d.filter (fun p => p.1 == k) = [(k, v)] := by
  induction d with
  | nil => simp [dlookup] at h
  | cons p rest ih =>
    rw [List.map_cons, List.nodup_cons] at hnd
    obtain ⟨hid, hnd⟩ := hnd
    obtain ⟨k0, v0⟩ := p
    by_cases hp : k0 = k
    · subst hp
      rw [dlookup, if_pos rfl] at h
      injection h with h
      subst h
      rw [List.filter_cons]
      simp only [beq_self_eq_true, if_pos]
      have : rest.filter (fun p => p.1 == k0) = [] := by
        rw [List.filter_eq_nil_iff]
        intro q hq e
        apply hid
        have hq1 : q.1 = k0 := by simpa using e
        have hm : q.1 ∈ rest.map Prod.fst := List.mem_map_of_mem Prod.fst hq
        rw [hq1] at hm
        exact hm
      simp [this]
    · rw [dlookup, if_neg hp] at h
      rw [List.filter_cons]
      have : ((k0, v0).1 == k) = false := by simpa using hp
      simp only [this, if_neg, Bool.false_eq_true, not_false_iff]
      exact ih hnd h

theorem filter_key_of_dlookup_none {α : Type} {d : List (String × α)} {k : String}
    (h : dlookup d k = none) : d.filter (fun p => p.1 == k) = [] := by
  rw [List.filter_eq_nil_iff]
  intro q hq e
  have : q.1 = k := by simpa using e
  exact (dlookup_eq_none_iff d k).mp h q hq this

/-! ### Characterisation of the correspondence fetcher -/

theorem insertPage_eq (pages : DictS) (page : Page) :
    insertPage pages page =
      (match readEventId page with
       | some event_id => dinsert event_id page.id pages
       | none => pages) := by
  unfold insertPage readEventId
  cases ho : get_property_content page.event_id_property with
  | none => simp [pyTruthy]
  | some s =>
    by_cases hs : s = ""
    · subst hs
      simp [pyTruthy]
    · simp [pyTruthy, hs]

theorem dlookup_foldl_insertPage (ps : List Page) (acc : DictS) (event_id : String) :
    dlookup (ps.foldl insertPage acc) event_id =
      ((ps.filterMap (pageIdFor event_id)).getLast?).or (dlookup acc event_id) := by
  induction ps using List.reverseRecOn generalizing acc with
  | nil => simp
  | append_singleton ps p ih =>
    rw [List.foldl_append, List.foldl_cons, List.foldl_nil, insertPage_eq,
      List.filterMap_append]
    cases hr : readEventId p with
    | none =>
      have hf : pageIdFor event_id p = none := by
        unfold pageIdFor
        rw [hr]
      simp [hf, ih]
    | some i =>
      by_cases hi : i = event_id
      · subst hi
        have hf : pageIdFor i p = some p.id := by
          unfold pageIdFor
          rw [hr]
          simp
        simp only [hf, List.filterMap_cons, List.filterMap_nil]
        rw [List.getLast?_concat, dlookup_dinsert_self]
        rfl
      · have hf : pageIdFor event_id p = none := by
          unfold pageIdFor
          rw [hr]
          simp [hi]
        have hne : event_id ≠ i := fun e => hi e.symm
        simp only [hf, List.filterMap_cons, List.filterMap_nil, List.append_nil]
        rw [dlookup_dinsert_ne _ _ _ _ hne]
        exact ih acc

theorem dlookup_buildPagesMap (ps : List Page) (event_id : String) :
    dlookup (buildPagesMap ps) event_id = (ps.filterMap (pageIdFor event_id)).getLast? := by
  rw [buildPagesMap, dlookup_foldl_insertPage]
  simp [dlookup]

theorem storeChain_ne_nil {store : Option String → QueryResponse} {c : Option String}
    {rs : List QueryResponse} (h : StoreChain store c rs) : rs ≠ [] := by
  cases h <;> simp

theorem get_notion_pages_aux_chain (store : Option String → QueryResponse)
    {c : Option String} {rs : List QueryResponse} (h : StoreChain store c rs) :
    ∀ (fuel : Nat) (pages : DictS) (reqs : List (Option String)), rs.length ≤ fuel →
      get_notion_pages_aux store fuel c pages reqs =
        some (reqs ++ c :: rs.dropLast.map QueryResponse.next_cursor,
              ((rs.map QueryResponse.results).flatten).foldl insertPage pages) := by
  induction h with
  | last c r hs hm =>
    intro fuel pages reqs hf
    cases fuel with
    | zero => simp at hf
    | succ f =>
      simp only [get_notion_pages_aux, hs, hm]
      simp
  | more c r rs hs hm hchain ih =>
    intro fuel pages reqs hf
    cases fuel with
    | zero => simp at hf
    | succ f =>
      have hf' : rs.length ≤ f := by
        rw [List.length_cons] at hf
        omega
      simp only [get_notion_pages_aux, hs, hm, if_pos]
      rw [ih f (r.results.foldl insertPage pages) (reqs ++ [c]) hf']
      rw [List.dropLast_cons_of_ne_nil (storeChain_ne_nil hchain)]
      simp [List.flatten_cons, List.foldl_append]

theorem get_notion_pages_chain (store : Option String → QueryResponse)
    {rs : List QueryResponse} (h : StoreChain store none rs) (fuel : Nat)
    (hf : rs.length ≤ fuel) :
    get_notion_pages store fuel =
      some (none :: rs.dropLast.map QueryResponse.next_cursor,
            buildPagesMap ((rs.map QueryResponse.results).flatten)) := by
  rw [get_notion_pages, get_notion_pages_aux_chain store h fuel [] [] hf]
  rfl

/-! ### Claims -/

/-- C2: the recurrence formatter is a pure total function; an absent
recurrence unit yields no text; unit `week` with interval 1 and no day
set yields `Every week`; unit `week` with interval 2 yields
`Every 2 weeks`; unit `month` with interval 1 and day set `MO,WE` yields
`Every month on Monday and Wednesday`; a day code whose trimmed form is
outside the seven-entry table passes through trimmed; several days are
comma-joined with `and` before the last. -/
theorem claim_C2_recurrence_formatter :
    (∀ event : Event, event.recurrence_type = none → format_recurrence_text event = none)
    ∧ format_recurrence_text
        { baseEvent with recurrence_type := some "week", interval := some 1 }
        = some "Every week"
    ∧ format_recurrence_text
        { baseEvent with recurrence_type := some "week", interval := some 2 }
        = some "Every 2 weeks"
    ∧ format_recurrence_text { baseEvent with recurrence_type := some "month", interval := some 1, by_day := some "MO,WE" } = some "Every month on Monday and Wednesday"
    ∧ (∀ day : String, day_mapping (pyStrip day) = none → formatDay day = pyStrip day)
    ∧ (∀ (ds : List String) (d : String), ds ≠ [] →
        joinDays (ds ++ [d]) = "on " ++ String.intercalate ", " ds ++ " and " ++ d) := by
  refine ⟨?_, by decide, by decide, by decide, ?_, ?_⟩
  · intro event h
    simp [format_recurrence_text, h, pyTruthy]
  · intro day h
    simp [formatDay, h]
  · intro ds d hne
    rw [joinDays]
    have hlen : ¬((ds ++ [d]).length = 1) := by
      rw [List.length_append]
      cases ds with
      | nil => exact absurd rfl hne
      | cons a t => simp
    rw [if_neg hlen, List.dropLast_concat, List.getLastD_concat]

/-- Witness for C2 at concrete inputs. -/
theorem claim_C2_witness :
    format_recurrence_text baseEvent = none
    ∧ formatDay " XX " = "XX"
    ∧ joinDays ["Monday", "Wednesday", "Friday"] = "on Monday, Wednesday and Friday" := by
  refine ⟨claim_C2_recurrence_formatter.1 baseEvent rfl, ?_, ?_⟩
  · exact claim_C2_recurrence_formatter.2.2.2.2.1 " XX " (by decide)
  · have h := claim_C2_recurrence_formatter.2.2.2.2.2 ["Monday", "Wednesday"] "Friday" (by simp)
    exact h.trans (by decide)

/-- C10: the extracted identifier of a property is the content of the
first rich-text segment only, later segments are ignored; a property
with no rich-text key or with an empty segment list is extracted as
nothing and contributes no entry to the correspondence map. -/
theorem claim_C10_property_content :
    (∀ (seg : String) (rest : List String),
        get_property_content (some (seg :: rest)) = some seg)
    ∧ get_property_content none = none
    ∧ get_property_content (some []) = none
    ∧ (∀ (pages : DictS) (handle : String),
        insertPage pages { event_id_property := none, id := handle } = pages)
    ∧ (∀ (pages : DictS) (handle : String),
        insertPage pages { event_id_property := some [], id := handle } = pages)
    ∧ (∀ (pages : DictS) (handle seg : String) (rest : List String),
        insertPage pages { event_id_property := some (seg :: rest), id := handle }
          = insertPage pages { event_id_property := some [seg], id := handle }) :=
  ⟨fun _ _ => rfl, rfl, rfl, fun _ _ => rfl, fun _ _ => rfl, fun _ _ _ _ => rfl⟩

/-- C6: signature verification succeeds exactly when the secret is
configured and the signature equals the HMAC-SHA256 hex digest of the
body under that secret; a body signed with secret S verifies under S;
whenever a body or secret change alters the digest, verification fails;
an absent secret fails every verification. -/
theorem claim_C6_verify_signature (hmac_hexdigest : String → List Nat → String) :
    (∀ (secret : Option String) (signature : String) (body : List Nat),
        verify_signature hmac_hexdigest secret signature body = true ↔
          pyTruthy secret = true ∧ signature = hmac_hexdigest (secret.getD "") body)
    ∧ (∀ (S : String) (body : List Nat), S ≠ "" →
        verify_signature hmac_hexdigest (some S) (hmac_hexdigest S body) body = true)
    ∧ (∀ (S S' : String) (body body' : List Nat), S' ≠ "" →
        hmac_hexdigest S body ≠ hmac_hexdigest S' body' →
        verify_signature hmac_hexdigest (some S') (hmac_hexdigest S body) body' = false)
    ∧ (∀ (signature : String) (body : List Nat),
        verify_signature hmac_hexdigest none signature body = false) := by
  refine ⟨?_, ?_, ?_, ?_⟩
  · intro secret signature body
    cases hs : pyTruthy secret
    · simp [verify_signature, hs]
    · simp [verify_signature, hs]
  · intro S body hS
    simp [verify_signature, pyTruthy, hS]
  · intro S S' body body' hS' hne
    simp only [verify_signature, pyTruthy, hS', if_neg, if_false, Bool.false_eq_true]
    simp [hS', fun e => hne e]
  · intro signature body
    simp [verify_signature, pyTruthy]

/-- Witness for C6 at a concrete digest function, secret and body. -/
theorem claim_C6_witness :
    verify_signature concreteHmac (some "S") (concreteHmac "S" [1, 2]) [1, 2] = true
    ∧ verify_signature concreteHmac (some "T") (concreteHmac "S" [1, 2]) [1, 2] = false
    ∧ verify_signature concreteHmac none (concreteHmac "S" [1, 2]) [1, 2] = false := by
  refine ⟨(claim_C6_verify_signature concreteHmac).2.1 "S" [1, 2] (by decide),
    (claim_C6_verify_signature concreteHmac).2.2.1 "S" "T" [1, 2] [1, 2] (by decide)
      (by decide),
    (claim_C6_verify_signature concreteHmac).2.2.2 _ _⟩

/-- C3: for every event, the payload of both the create and the update
path contains the `Description` key iff the description is non-empty,
contains the `Recurrence` key iff the formatter produced non-null text,
and always contains the `Location` key, whose value is the empty string
when the location is absent. -/
theorem claim_C3_optional_fields (event : Event) :
    (hasKey (update_page_properties event) "Description" = pyTruthy event.description
      ∧ hasKey (create_page_properties event) "Description" = pyTruthy event.description)
    ∧ (hasKey (update_page_properties event) "Recurrence"
        = (format_recurrence_text event).isSome
      ∧ hasKey (create_page_properties event) "Recurrence"
        = (format_recurrence_text event).isSome)
    ∧ (dlookup (update_page_properties event) "Location"
        = some (PropValue.rich_text (event.location.getD ""))
      ∧ dlookup (create_page_properties event) "Location"
        = some (PropValue.rich_text (event.location.getD "")))
    ∧ (event.location = none →
        dlookup (update_page_properties event) "Location" = some (PropValue.rich_text "")
        ∧ dlookup (create_page_properties event) "Location"
          = some (PropValue.rich_text "")) := by
  have hdesc : hasKey (update_page_properties event) "Description" = pyTruthy event.description := by
    rw [hasKey, update_props_description]
    cases pyTruthy event.description <;> simp
  have hrec : hasKey (update_page_properties event) "Recurrence" = (format_recurrence_text event).isSome := by
    rw [hasKey, update_props_recurrence, pyTruthy_format_recurrence_text]
    cases (format_recurrence_text event).isSome <;> simp
  have hloc := update_props_location event
  refine ⟨⟨hdesc, ?_⟩, ⟨hrec, ?_⟩, ⟨hloc, ?_⟩, ?_⟩
  · rw [create_page_properties_eq]
    exact hdesc
  · rw [create_page_properties_eq]
    exact hrec
  · rw [create_page_properties_eq]
    exact hloc
  · intro h
    rw [create_page_properties_eq]
    rw [h] at hloc
    exact ⟨hloc, hloc⟩

/-- Witness for C3 at concrete events. -/
theorem claim_C3_witness :
    hasKey (update_page_properties { baseEvent with description := some "d" }) "Description" = true
    ∧ hasKey (update_page_properties baseEvent) "Description" = false
    ∧ hasKey (update_page_properties baseEvent) "Recurrence" = false
    ∧ dlookup (update_page_properties baseEvent) "Location" = some (PropValue.rich_text "") := by
  refine ⟨?_, ?_, ?_, ((claim_C3_optional_fields baseEvent).2.2.2 rfl).1⟩
  · exact ((claim_C3_optional_fields { baseEvent with description := some "d" }).1.1).trans (by decide)
  · exact ((claim_C3_optional_fields baseEvent).1.1).trans (by decide)
  · exact ((claim_C3_optional_fields baseEvent).2.1.1).trans (by decide)

/-- C4 fails as stated: an aggregated attendee string consisting of one
blank segment contains no non-blank attendee email, yet the payload
still carries the `Attendees` key (with an empty value list). -/
theorem claim_C4_counterexample :
    hasKey (update_page_properties { baseEvent with attendees := some " " }) "Attendees" = true
    ∧ hasKey (create_page_properties { baseEvent with attendees := some " " }) "Attendees" = true
    ∧ (∀ seg ∈ pyAttendees (some " "), pyStrip seg = "")
    ∧ dlookup (update_page_properties { baseEvent with attendees := some " " }) "Attendees"
        = some (PropValue.multi_select []) := by
  refine ⟨by decide, by decide, by decide, by decide⟩

/-- C4 amended: the payload of both paths includes the `Attendees` key
iff the aggregated attendee string is present and non-empty (even when
every segment is blank, in which case the value list is empty); the
value list consists of the trimmed non-blank segments of the source
string in order, so each included email is trimmed and no
de-duplication is applied beyond what the source string contains. -/
theorem claim_C4_amended (event : Event) :
    (hasKey (update_page_properties event) "Attendees" = pyTruthy event.attendees
      ∧ hasKey (create_page_properties event) "Attendees" = pyTruthy event.attendees)
    ∧ (pyTruthy event.attendees = true →
        dlookup (update_page_properties event) "Attendees"
          = some (PropValue.multi_select ((pyAttendees event.attendees).filterMap
              (fun email => if pyStrip email = "" then none else some (pyStrip email)))))
    ∧ (∀ (l : List String) (name : String),
        dlookup (update_page_properties event) "Attendees"
            = some (PropValue.multi_select l) → name ∈ l →
        ∃ seg ∈ pyAttendees event.attendees, name = pyStrip seg ∧ pyStrip seg ≠ "") := by
  have hkey : hasKey (update_page_properties event) "Attendees" = pyTruthy event.attendees := by
    rw [hasKey, update_props_attendees]
    cases ht : pyTruthy event.attendees
    · have : pyAttendees event.attendees = [] := (pyAttendees_eq_nil_iff event.attendees).mpr ht
      simp [this]
    · have hne : pyAttendees event.attendees ≠ [] := by
        intro h
        rw [(pyAttendees_eq_nil_iff event.attendees).mp h] at ht
        exact Bool.false_ne_true ht
      have : (pyAttendees event.attendees).isEmpty = false := by
        cases hA : pyAttendees event.attendees
        · exact absurd hA hne
        · rfl
      simp [this]
  refine ⟨⟨hkey, ?_⟩, ?_, ?_⟩
  · rw [create_page_properties_eq]
    exact hkey
  · intro ht
    rw [update_props_attendees]
    have hne : pyAttendees event.attendees ≠ [] := by
      intro h
      rw [(pyAttendees_eq_nil_iff event.attendees).mp h] at ht
      exact Bool.false_ne_true ht
    have hE : (pyAttendees event.attendees).isEmpty = false := by
      cases hA : pyAttendees event.attendees
      · exact absurd hA hne
      · rfl
    simp [hE]
  · intro l name hl hmem
    rw [update_props_attendees] at hl
    by_cases hE : (pyAttendees event.attendees).isEmpty
    · rw [if_pos hE] at hl
      exact absurd hl (by simp)
    · rw [if_neg hE] at hl
      injection hl with hl
      injection hl with hl
      subst hl
      obtain ⟨seg, hseg, hname⟩ := List.mem_filterMap.mp hmem
      by_cases hb : pyStrip seg = ""
      · rw [if_pos hb] at hname
        exact absurd hname (by simp)
      · rw [if_neg hb] at hname
        injection hname with hname
        exact ⟨seg, hseg, hname.symm, hb⟩

/-- Witness for the amended C4 at a concrete attendee string with
surrounding whitespace and a duplicate. -/
theorem claim_C4_witness :
    hasKey (update_page_properties { baseEvent with attendees := some "a@x, b@x , a@x" }) "Attendees" = true
    ∧ dlookup (update_page_properties { baseEvent with attendees := some "a@x, b@x , a@x" }) "Attendees"
        = some (PropValue.multi_select ["a@x", "b@x", "a@x"]) := by
  refine ⟨?_, ?_⟩
  · exact ((claim_C4_amended { baseEvent with attendees := some "a@x, b@x , a@x" }).1.1).trans (by decide)
  · have h := (claim_C4_amended { baseEvent with attendees := some "a@x, b@x , a@x" }).2.1 (by decide)
    exact h.trans (by decide)

/-- C1: one reconciliation pass issues exactly one update call, with
`C[id]`'s page handle, for each identifier in both maps; exactly one
create call for each identifier only in the event map; exactly one
archive call for each identifier only in the correspondence map; and
the final tallies satisfy
`created + updated + deleted + errors = |E| + |C \ E|`. -/
theorem claim_C1_reconciliation (updApi : String → Props → Except String Unit)
    (crtApi : Props → Except String String) (delApi : String → Except String Unit)
    (E : List (String × Event)) (C : DictS)
    (hndE : (E.map Prod.fst).Nodup)
    (hkeyE : ∀ p ∈ E, p.2.event_id = p.1) :
    (∀ (id : String) (ev : Event) (page_id : String),
        dlookup E id = some ev → dlookup C id = some page_id →
        (sync_all_events updApi crtApi delApi E C).trace.filter (isUpdateOf id)
          = [Op.update page_id ev])
    ∧ (∀ (id : String) (ev : Event),
        dlookup E id = some ev → dlookup C id = none →
        (sync_all_events updApi crtApi delApi E C).trace.filter (isCreateOf id)
          = [Op.create ev])
    ∧ (sync_all_events updApi crtApi delApi E C).trace.filter isArchive
        = (C.filter (fun q => (dlookup E q.1).isNone)).map (fun q => Op.archive q.2)
    ∧ (sync_all_events updApi crtApi delApi E C).created
        + (sync_all_events updApi crtApi delApi E C).updated
        + (sync_all_events updApi crtApi delApi E C).deleted
        + (sync_all_events updApi crtApi delApi E C).errors
      = E.length + (C.filter (fun q => (dlookup E q.1).isNone)).length := by
  have hR := sync_all_events_eq updApi crtApi delApi E C hndE
  have hLC : leftoverPages E C = C.filter (fun q => (dlookup E q.1).isNone) := by
    unfold leftoverPages
    apply List.filter_congr
    intro q _
    rw [dlookup_isNone_eq_not_contains]
  refine ⟨?_, ?_, ?_, ?_⟩
  · intro id ev page_id hE hC
    simp only [hR]
    rw [List.filter_append]
    have h2 : ((leftoverPages E C).map (fun q => Op.archive q.2)).filter (isUpdateOf id) = [] := by
      rw [List.filter_eq_nil_iff]
      intro a ha
      obtain ⟨q, _, rfl⟩ := List.mem_map.mp ha
      simp [isUpdateOf]
    have h1 : (E.map (phase1Op C)).filter (isUpdateOf id) = [Op.update page_id ev] := by
      rw [List.filter_map]
      have hc : ∀ p ∈ E, (isUpdateOf id ∘ phase1Op C) p = (p.1 == id) := by
        intro p hp
        have hk := hkeyE p hp
        unfold Function.comp phase1Op isUpdateOf
        cases hq : dlookup C p.1 with
        | some pid => simp [hk]
        | none =>
          by_cases hpi : p.1 = id
          · rw [hpi] at hq
            rw [hq] at hC
            exact absurd hC (by simp)
          · simp [hpi]
      rw [List.filter_congr hc, filter_key_of_dlookup_some hndE hE]
      simp [phase1Op, hC]
    rw [h1, h2, List.append_nil]
  · intro id ev hE hC
    simp only [hR]
    rw [List.filter_append]
    have h2 : ((leftoverPages E C).map (fun q => Op.archive q.2)).filter (isCreateOf id) = [] := by
      rw [List.filter_eq_nil_iff]
      intro a ha
      obtain ⟨q, _, rfl⟩ := List.mem_map.mp ha
      simp [isCreateOf]
    have h1 : (E.map (phase1Op C)).filter (isCreateOf id) = [Op.create ev] := by
      rw [List.filter_map]
      have hc : ∀ p ∈ E, (isCreateOf id ∘ phase1Op C) p = (p.1 == id) := by
        intro p hp
        have hk := hkeyE p hp
        unfold Function.comp phase1Op isCreateOf
        cases hq : dlookup C p.1 with
        | some pid =>
          by_cases hpi : p.1 = id
          · rw [hpi] at hq
            rw [hq] at hC
            exact absurd hC (by simp)
          · simp [hpi]
        | none => simp [hk]
      rw [List.filter_congr hc, filter_key_of_dlookup_some hndE hE]
      simp [phase1Op, hC]
    rw [h1, h2, List.append_nil]
  · simp only [hR]
    rw [List.filter_append]
    have h1 : (E.map (phase1Op C)).filter isArchive = [] := by
      rw [List.filter_eq_nil_iff]
      intro a ha
      obtain ⟨p, _, rfl⟩ := List.mem_map.mp ha
      unfold phase1Op isArchive
      cases dlookup C p.1 <;> simp
    have h2 : ((leftoverPages E C).map (fun q => Op.archive q.2)).filter isArchive
        = (leftoverPages E C).map (fun q => Op.archive q.2) := by
      rw [List.filter_eq_self]
      intro a ha
      obtain ⟨q, _, rfl⟩ := List.mem_map.mp ha
      simp [isArchive]
    rw [h1, h2, hLC, List.nil_append]
  · simp only [hR]
    have h3 : E.countP (phase1CreatedP (create_notion_page crtApi) C)
        + E.countP (phase1UpdatedP (update_notion_page updApi) C)
        + E.countP (phase1ErrorP (update_notion_page updApi) (create_notion_page crtApi) C)
        = E.length :=
      countP_partition_three _ _ _ E (fun x _ => phase1_partition _ _ C x)
    have h2 : (leftoverPages E C).countP (fun q => delete_notion_page delApi q.2)
        + (leftoverPages E C).countP (fun q => !delete_notion_page delApi q.2)
        = (leftoverPages E C).length :=
      countP_partition_two _ _
    rw [← hLC]
    omega

/-- Witness for C1: two events, one matched and one new, plus one stale
correspondence, all calls succeeding. -/
theorem claim_C1_witness :
    (sync_all_events okUpdApi okCrtApi okDelApi sampleEvents samplePages).trace.filter (isUpdateOf "a")
      = [Op.update "pa" evA]
    ∧ (sync_all_events okUpdApi okCrtApi okDelApi sampleEvents samplePages).trace.filter (isCreateOf "b")
      = [Op.create evB]
    ∧ (sync_all_events okUpdApi okCrtApi okDelApi sampleEvents samplePages).trace.filter isArchive
      = [Op.archive "pc"]
    ∧ (sync_all_events okUpdApi okCrtApi okDelApi sampleEvents samplePages).created
        + (sync_all_events okUpdApi okCrtApi okDelApi sampleEvents samplePages).updated
        + (sync_all_events okUpdApi okCrtApi okDelApi sampleEvents samplePages).deleted
        + (sync_all_events okUpdApi okCrtApi okDelApi sampleEvents samplePages).errors
      = 3 := by
  have h := claim_C1_reconciliation okUpdApi okCrtApi okDelApi sampleEvents samplePages
    (by decide) (by decide)
  refine ⟨h.1 "a" evA "pa" (by decide) (by decide), h.2.1 "b" evB (by decide) (by decide),
    (h.2.2.1).trans (by decide), (h.2.2.2).trans (by decide)⟩

/-- C7: a failure raised inside a create, update or archive call is
caught within the wrapper and converted to `False`/`None`; the calls a
pass issues do not depend on any call's outcome, so the remaining
identifiers are processed unaffected; and the errors tally counts
exactly the failed calls. -/
theorem claim_C7_error_isolation (updApi : String → Props → Except String Unit)
    (crtApi : Props → Except String String) (delApi : String → Except String Unit)
    (E : List (String × Event)) (C : DictS)
    (hndE : (E.map Prod.fst).Nodup) :
    (∀ (page_id : String) (event : Event) (msg : String),
        updApi page_id (update_page_properties event) = Except.error msg →
        update_notion_page updApi page_id event = false)
    ∧ (∀ (event : Event) (msg : String),
        crtApi (create_page_properties event) = Except.error msg →
        create_notion_page crtApi event = none)
    ∧ (∀ (page_id msg : String),
        delApi page_id = Except.error msg →
        delete_notion_page delApi page_id = false)
    ∧ (∀ (updApi' : String → Props → Except String Unit)
        (crtApi' : Props → Except String String) (delApi' : String → Except String Unit),
        (sync_all_events updApi crtApi delApi E C).trace
          = (sync_all_events updApi' crtApi' delApi' E C).trace)
    ∧ (sync_all_events updApi crtApi delApi E C).errors
        = E.countP (phase1ErrorP (update_notion_page updApi) (create_notion_page crtApi) C)
          + (leftoverPages E C).countP (fun q => !delete_notion_page delApi q.2) := by
  refine ⟨?_, ?_, ?_, ?_, ?_⟩
  · intro page_id event msg h
    rw [update_notion_page, h]
  · intro event msg h
    rw [create_notion_page, h]
  · intro page_id msg h
    rw [delete_notion_page, h]
  · intro updApi' crtApi' delApi'
    rw [sync_all_events_eq updApi crtApi delApi E C hndE,
      sync_all_events_eq updApi' crtApi' delApi' E C hndE]
  · rw [sync_all_events_eq updApi crtApi delApi E C hndE]

/-- Witness for C7: every call fails, the trace matches the all-success
trace, and all three failures are counted. -/
theorem claim_C7_witness :
    update_notion_page errUpdApi "pa" evA = false
    ∧ create_notion_page errCrtApi evB = none
    ∧ delete_notion_page errDelApi "pc" = false
    ∧ (sync_all_events errUpdApi errCrtApi errDelApi sampleEvents samplePages).trace
        = (sync_all_events okUpdApi okCrtApi okDelApi sampleEvents samplePages).trace
    ∧ (sync_all_events errUpdApi errCrtApi errDelApi sampleEvents samplePages).errors = 3 := by
  have h := claim_C7_error_isolation errUpdApi errCrtApi errDelApi sampleEvents samplePages
    (by decide)
  exact ⟨h.1 "pa" evA "e1" rfl, h.2.1 evB "e1" rfl, h.2.2.1 "pc" "e1" rfl,
    h.2.2.2.1 okUpdApi okCrtApi okDelApi, (h.2.2.2.2).trans (by decide)⟩

/-- C8: a second reconciliation pass against a page map holding exactly
the identifiers of the unchanged event set, with no per-item failures,
performs zero creates, zero archives, and one update per source event. -/
theorem claim_C8_idempotence (updApi : String → Props → Except String Unit)
    (crtApi : Props → Except String String) (delApi : String → Except String Unit)
    (E : List (String × Event)) (C' : DictS)
    (hndE : (E.map Prod.fst).Nodup)
    (hsame : ∀ id : String, (dlookup C' id).isSome = (dlookup E id).isSome)
    (hupd : ∀ (page_id : String) (props : Props), updApi page_id props = Except.ok ()) :
    (sync_all_events updApi crtApi delApi E C').created = 0
    ∧ (sync_all_events updApi crtApi delApi E C').updated = E.length
    ∧ (sync_all_events updApi crtApi delApi E C').deleted = 0
    ∧ (sync_all_events updApi crtApi delApi E C').errors = 0 := by
  have hR := sync_all_events_eq updApi crtApi delApi E C' hndE
  have hmatched : ∀ p ∈ E, (dlookup C' p.1).isSome = true := by
    intro p hp
    rw [hsame p.1]
    exact mem_dlookup_isSome hp
  have hleft : leftoverPages E C' = [] := by
    unfold leftoverPages
    rw [List.filter_eq_nil_iff]
    intro q hq
    have h1 : (dlookup E q.1).isSome = true := by
      rw [← hsame q.1]
      exact mem_dlookup_isSome hq
    rw [← dlookup_isNone_eq_not_contains]
    cases hE : dlookup E q.1 with
    | none =>
      rw [hE] at h1
      exact absurd h1 (by simp)
    | some v => simp
  refine ⟨?_, ?_, ?_, ?_⟩
  · simp only [hR]
    rw [List.countP_eq_zero]
    intro p hp
    have hm := hmatched p hp
    unfold phase1CreatedP
    cases hq : dlookup C' p.1 with
    | none =>
      rw [hq] at hm
      exact absurd hm (by simp)
    | some pid => simp
  · simp only [hR]
    rw [List.countP_eq_length]
    intro p hp
    have hm := hmatched p hp
    unfold phase1UpdatedP
    cases hq : dlookup C' p.1 with
    | none =>
      rw [hq] at hm
      exact absurd hm (by simp)
    | some pid =>
      simp only [update_notion_page, hupd pid (update_page_properties p.2)]
  · simp only [hR, hleft]
    simp
  · simp only [hR, hleft]
    have hz : E.countP (phase1ErrorP (update_notion_page updApi) (create_notion_page crtApi) C') = 0 := by
      rw [List.countP_eq_zero]
      intro p hp
      have hm := hmatched p hp
      unfold phase1ErrorP
      cases hq : dlookup C' p.1 with
      | none =>
        rw [hq] at hm
        exact absurd hm (by simp)
      | some pid =>
        simp only [update_notion_page, hupd pid (update_page_properties p.2)]
        simp
    simp [hz]

/-- Witness for C8: the event set of the C1 fixture, and a page map
carrying exactly its identifiers (in another order). -/
theorem claim_C8_witness :
    (sync_all_events okUpdApi okCrtApi okDelApi sampleEvents [("b", "pb"), ("a", "pa")]).created = 0
    ∧ (sync_all_events okUpdApi okCrtApi okDelApi sampleEvents [("b", "pb"), ("a", "pa")]).updated = 2
    ∧ (sync_all_events okUpdApi okCrtApi okDelApi sampleEvents [("b", "pb"), ("a", "pa")]).deleted = 0
    ∧ (sync_all_events okUpdApi okCrtApi okDelApi sampleEvents [("b", "pb"), ("a", "pa")]).errors = 0 := by
  have hsame : ∀ id : String,
      (dlookup [("b", "pb"), ("a", "pa")] id).isSome = (dlookup sampleEvents id).isSome := by
    intro id
    by_cases hb : ("b" : String) = id
    · subst hb
      decide
    · by_cases ha : ("a" : String) = id
      · subst ha
        decide
      · simp [dlookup, sampleEvents, hb, ha]
  have h := claim_C8_idempotence okUpdApi okCrtApi okDelApi sampleEvents
    [("b", "pb"), ("a", "pa")] (by decide) hsame (fun _ _ => rfl)
  exact ⟨h.1, h.2.1, h.2.2.1, h.2.2.2⟩

/-- C5: over a store whose responses chain `has_more = true` for the
first K−1 requests and `false` for the K-th, each supplying the next
start cursor, `get_notion_pages` issues exactly K requests — the first
with no cursor, each later one with the previous response's cursor —
and returns the map aggregating the identifier-bearing pages of all K
responses. -/
theorem claim_C5_pagination (store : Option String → QueryResponse)
    (rs : List QueryResponse) (fuel : Nat)
    (h : StoreChain store none rs) (hf : rs.length ≤ fuel) :
    get_notion_pages store fuel
      = some (none :: rs.dropLast.map QueryResponse.next_cursor,
              buildPagesMap ((rs.map QueryResponse.results).flatten))
    ∧ (none :: rs.dropLast.map QueryResponse.next_cursor).length = rs.length
    ∧ (∀ event_id : String,
        hasKey (buildPagesMap ((rs.map QueryResponse.results).flatten)) event_id
          = !(((rs.map QueryResponse.results).flatten).filterMap (pageIdFor event_id)).isEmpty) := by
  refine ⟨get_notion_pages_chain store h fuel hf, ?_, ?_⟩
  · rw [List.length_cons, List.length_map, List.length_dropLast]
    have hpos : 0 < rs.length := List.length_pos.mpr (storeChain_ne_nil h)
    omega
  · intro event_id
    rw [hasKey, dlookup_buildPagesMap]
    cases hL : ((rs.map QueryResponse.results).flatten).filterMap (pageIdFor event_id) with
    | nil => simp
    | cons a t =>
      have hs := List.getLast?_isSome.mpr (List.cons_ne_nil a t)
      simp [hs]

/-- Witness for C5: a two-response store chained by one cursor. -/
theorem claim_C5_witness :
    get_notion_pages sampleStore 2 = some ([none, some "cur1"], [("a", "pa"), ("b", "pb")]) := by
  have hchain : StoreChain sampleStore none [sampleResp1, sampleResp2] :=
    StoreChain.more none sampleResp1 [sampleResp2] rfl rfl
      (StoreChain.last sampleResp1.next_cursor sampleResp2 rfl rfl)
  have h := claim_C5_pagination sampleStore [sampleResp1, sampleResp2] 2 hchain (by decide)
  exact (h.1).trans (by decide)

/-- C9: when several enumerated pages carry the same readable event
identifier, the correspondence map keeps the last-enumerated page's
handle (the map's value at any identifier is the last matching handle);
and a handle retained for no identifier — in particular an earlier
duplicate's handle — receives neither an update nor an archive call
during the pass. -/
theorem claim_C9_duplicate_identifiers (updApi : String → Props → Except String Unit)
    (crtApi : Props → Except String String) (delApi : String → Except String Unit)
    (ps : List Page) (E : List (String × Event))
    (hndE : (E.map Prod.fst).Nodup) :
    (∀ event_id : String,
        dlookup (buildPagesMap ps) event_id = (ps.filterMap (pageIdFor event_id)).getLast?)
    ∧ (∀ h : String, (∀ q ∈ buildPagesMap ps, q.2 ≠ h) →
        (sync_all_events updApi crtApi delApi E (buildPagesMap ps)).trace.countP (usesHandle h)
          = 0) := by
  refine ⟨fun event_id => dlookup_buildPagesMap ps event_id, ?_⟩
  intro h hno
  simp only [sync_all_events_eq updApi crtApi delApi E (buildPagesMap ps) hndE]
  rw [List.countP_append]
  have h1 : (E.map (phase1Op (buildPagesMap ps))).countP (usesHandle h) = 0 := by
    rw [List.countP_eq_zero]
    intro a ha
    obtain ⟨p, _, rfl⟩ := List.mem_map.mp ha
    unfold phase1Op usesHandle
    cases hq : dlookup (buildPagesMap ps) p.1 with
    | none => simp
    | some pid =>
      have hmem := dlookup_some_mem hq
      have hne := hno (p.1, pid) hmem
      simpa using hne
  have h2 : ((leftoverPages E (buildPagesMap ps)).map (fun q => Op.archive q.2)).countP (usesHandle h) = 0 := by
    rw [List.countP_eq_zero]
    intro a ha
    obtain ⟨q, hq, rfl⟩ := List.mem_map.mp ha
    have hqC : q ∈ buildPagesMap ps := (List.mem_filter.mp hq).1
    have hne := hno q hqC
    unfold usesHandle
    simpa using hne
  rw [h1, h2]

/-- Witness for C9: two pages carrying identifier `a`; the map keeps the
second handle and the first handle receives no call. -/
theorem claim_C9_witness :
    dlookup (buildPagesMap dupPages) "a" = some "p2"
    ∧ (sync_all_events okUpdApi okCrtApi okDelApi [("a", evA)] (buildPagesMap dupPages)).trace.countP (usesHandle "p1")
      = 0 := by
  have h := claim_C9_duplicate_identifiers okUpdApi okCrtApi okDelApi dupPages [("a", evA)]
    (by decide)
  exact ⟨(h.1 "a").trans (by decide), h.2 "p1" (by decide)⟩

end GCalSync
